import Mathlib

/-!
Shallow embedding of the core of eqlabs/starknet-scrape (src/packing.rs,
src/decomp.rs, src/transform.rs, src/lookup.rs, src/parser.rs).

Modelling conventions:
* field elements (`num_bigint::BigUint`) are modelled as `Nat`;
* `usize`/`u64` values are modelled as `Nat` (with explicit `2 ^ 64` bound
  checks where the source calls `to_usize`/`to_u64`);
* fallible functions (`eyre::Result<T>`) are modelled as `Except String T`;
  error strings keep the static part of the source message (the `{}`
  interpolations of `anyhow!` are dropped);
* the iterator of field elements consumed by the decompressor and the parser
  is modelled as a `List Nat` threaded through the functions;
* `redb`-backed persistent state is modelled by an explicit `Db` record;
  a write transaction is a `Db` value threaded through the writes and
  "committed" by storing it back, so that an early error drops it;
* Rust panics (`expect`, out-of-bounds indexing) cannot occur on the paths
  the theorems below talk about; where the model needs a total function we
  use `List.getD`-style defaults and record the fact in a comment.
-/

set_option maxRecDepth 8000

namespace StarknetScrape

/-! ### packing.rs -/

/-- Translation of `PackConst` (src/packing.rs): the bit-mask bundle describing
one packed contract-update word. -/
structure PackConst where
  top_mask : Nat
  short_top_mask : Nat
  class_flag_mask : Nat
  nonce_mask : Nat
  short_nonce_mask : Nat
  nonce_shift : Nat
  short_nonce_shift : Nat
  update_count_mask : Nat
  update_count_shift : Nat
  short_update_count_mask : Nat
  short_flag_mask : Nat
  one : Nat
  two : Nat
deriving DecidableEq

/-- Translation of `PackConst::unpack_contract_update` (src/packing.rs).
Returns `(class_flag, nonce, update_count)`; the `to_u64().expect("bitmasked")`
conversions cannot fail because both values are 64-bit-masked. -/
def PackConst.unpack_contract_update (c : PackConst) (packed : Nat) :
    Except String (Bool × Nat × Nat) :=
  let short_flag : Bool := c.short_flag_mask &&& packed != 0
  let top_mask := if short_flag then c.short_top_mask else c.top_mask
  let top := top_mask &&& packed
  if top != 0 then
    .error "Extra high bits"
  else
    let class_flag : Bool := c.class_flag_mask &&& packed != 0
    let nonce_mask := if short_flag then c.short_nonce_mask else c.nonce_mask
    let nonce_high := nonce_mask &&& packed
    let nonce_shift := if short_flag then c.short_nonce_shift else c.nonce_shift
    let nonce := nonce_high >>> nonce_shift
    let update_count_mask :=
      if short_flag then c.short_update_count_mask else c.update_count_mask
    let update_count_high := update_count_mask &&& packed
    let update_count := update_count_high >>> c.update_count_shift
    .ok (class_flag, nonce, update_count)

namespace v0_13_1

/-- Translation of `v0_13_1::make_pack_const` (src/packing.rs). -/
def make_pack_const : PackConst :=
  let one : Nat := 1
  let two : Nat := 2
  let top_mask_low : Nat := (one <<< 127) - one
  let class_flag_mask := one <<< 128
  let nonce_mask_low : Nat := (one <<< 64) - one
  let update_count_mask := nonce_mask_low
  { top_mask := top_mask_low <<< 129
    short_top_mask := 0
    class_flag_mask := class_flag_mask
    nonce_mask := nonce_mask_low <<< 64
    short_nonce_mask := 0
    nonce_shift := 64
    short_nonce_shift := 0
    update_count_mask := update_count_mask
    update_count_shift := 0
    short_update_count_mask := 0
    short_flag_mask := 0
    one := one
    two := two }

end v0_13_1

namespace v0_13_3

/-- Translation of `v0_13_3::make_pack_const` (src/packing.rs). -/
def make_pack_const : PackConst :=
  let one : Nat := 1
  let two : Nat := 2
  let top_mask_low : Nat := (one <<< 126) - one
  let short_top_mask_low : Nat := (one <<< 182) - one
  let nonce_mask_low : Nat := (one <<< 64) - one
  let update_count_mask_low := nonce_mask_low
  let short_update_count_mask_low : Nat := 255
  { top_mask := top_mask_low <<< 130
    short_top_mask := short_top_mask_low <<< 74
    nonce_mask := nonce_mask_low <<< 66
    short_nonce_mask := nonce_mask_low <<< 10
    nonce_shift := 66
    short_nonce_shift := 10
    update_count_mask := update_count_mask_low <<< 2
    short_update_count_mask := short_update_count_mask_low <<< 2
    update_count_shift := 2
    class_flag_mask := one
    short_flag_mask := two
    one := one
    two := two }

end v0_13_3

/-! ### blob_util.rs -/

/-- Translation of `parse_usize` (src/blob_util.rs): `BigUint::to_usize` on a
64-bit machine succeeds exactly when the value fits in 64 bits. -/
def parse_usize (value : Nat) : Except String Nat :=
  if value < 2 ^ 64 then .ok value else .error "Value exceeds usize::MAX"

/-! ### decomp.rs -/

def HEADER_ELM_N_BITS : Nat := 20

def MAX_N_BITS_PER_FELT : Nat := 251

def TOTAL_N_BUCKETS : Nat := 7

/-- Loop body of `unpack_felt` (src/decomp.rs): repeatedly split off
`packed % elm_bound` and divide, `n_elms` times; returns the collected digits
(low first) and the remaining quotient. -/
def unpack_felt_loop (elm_bound : Nat) : Nat → Nat → List Nat × Nat
  | packed, 0 => ([], packed)
  | packed, n + 1 =>
    (packed % elm_bound :: (unpack_felt_loop elm_bound (packed / elm_bound) n).1,
     (unpack_felt_loop elm_bound (packed / elm_bound) n).2)

/-- Translation of `unpack_felt` (src/decomp.rs). -/
def unpack_felt (packed elm_bound : Nat) (n_elms : Nat) :
    Except String (List Nat × Nat) :=
  if n_elms = 0 then
    if packed = 0 then .ok ([], 0) else .error "unpacking leaves set bits"
  else
    .ok (unpack_felt_loop elm_bound packed n_elms)

/-- Translation of `unpack_header` (src/decomp.rs).  The
`iter.next().expect("9 elements")` panic is unreachable (9 digits are always
produced) and is modelled as an error; the `parse_usize(..).expect(..)` on the
remaining digits cannot fail (each digit is below `2 ^ 20`), so the digits are
kept as they are. -/
def unpack_header (packed : Nat) : Except String (List Nat) := do
  let elm_bound : Nat := 1 <<< HEADER_ELM_N_BITS
  let (elements, rest) ← unpack_felt packed elm_bound 9
  if rest != 0 then
    .error "high header bits set"
  else
    match elements with
    | [] => .error "9 elements"
    | version :: sizes =>
      if version != 0 then .error "invalid compression version"
      else .ok sizes

/-- Translation of `make_bucket_bounds` (src/decomp.rs). -/
def make_bucket_bounds : List Nat :=
  [252, 125, 83, 62, 31, 15].map (fun p => 1 <<< p)

/-- Translation of `get_n_elms_per_felt` (src/decomp.rs):
`usize::BITS - prev.leading_zeros()` is the bit length of `prev`, i.e.
`Nat.size prev`. -/
def get_n_elms_per_felt (elm_bound : Nat) : Nat :=
  if elm_bound < 2 then
    MAX_N_BITS_PER_FELT
  else
    let prev := elm_bound - 1
    let n_bits_per_elm := Nat.size prev
    MAX_N_BITS_PER_FELT / n_bits_per_elm

/-- Translation of `extend_with_repeats` (src/decomp.rs); the indices are
in bounds on every path taken (source comment: "caller ensures indices are
actually indices"), out-of-bounds indexing is modelled by a `0` default. -/
def extend_with_repeats (src_and_dst indices : List Nat) : List Nat :=
  indices.foldl (fun acc big_idx => acc ++ [acc.getD big_idx 0]) src_and_dst

/-- Loop body of `get_bucket_offsets` (src/decomp.rs). -/
def get_bucket_offsets_loop (current : Nat) : List Nat → List Nat
  | [] => []
  | length :: rest => current :: get_bucket_offsets_loop (current + length) rest

/-- Translation of `get_bucket_offsets` (src/decomp.rs): prefix sums. -/
def get_bucket_offsets (bucket_lengths : List Nat) : List Nat :=
  get_bucket_offsets_loop 0 bucket_lengths

/-- Translation of `Decompressor` (src/decomp.rs); the iterator is the
`current` list. -/
structure Decompressor where
  current : List Nat
  sizes : List Nat
deriving DecidableEq

/-- Translation of `Decompressor::unpack_felts_given_n_packed_felts`
(src/decomp.rs). -/
def Decompressor.unpack_felts_given_n_packed_felts (d : Decompressor)
    (elm_bound n_elms_per_felt : Nat) (decompressed_dst : List Nat) :
    Except String (List Nat × Decompressor) :=
  match d.current with
  | [] => .error "iterator finished before going through sizes"
  | felt :: remaining => do
    let (elements, rest) ← unpack_felt felt elm_bound n_elms_per_felt
    if rest != 0 then
      .error "high bits set"
    else
      .ok (decompressed_dst ++ elements, { d with current := remaining })

/-- The `for _ in 0..n_full_felts` loop of `Decompressor::unpack_felts`
(src/decomp.rs). -/
def Decompressor.unpack_felts_full :
    Nat → Decompressor → Nat → Nat → List Nat →
    Except String (List Nat × Decompressor)
  | 0, d, _, _, dst => .ok (dst, d)
  | k + 1, d, elm_bound, n_elms_per_felt, dst => do
    let (dst, d) ← d.unpack_felts_given_n_packed_felts elm_bound n_elms_per_felt dst
    Decompressor.unpack_felts_full k d elm_bound n_elms_per_felt dst

/-- Translation of `Decompressor::unpack_felts` (src/decomp.rs). -/
def Decompressor.unpack_felts (d : Decompressor)
    (n_elms elm_bound n_elms_per_felt : Nat) (dst : List Nat) :
    Except String (List Nat × Decompressor) := do
  let n_full_felts := n_elms / n_elms_per_felt
  let n_remaining_elms := n_elms % n_elms_per_felt
  let (dst, d) ← Decompressor.unpack_felts_full n_full_felts d elm_bound n_elms_per_felt dst
  if n_remaining_elms > 0 then
    d.unpack_felts_given_n_packed_felts elm_bound n_remaining_elms dst
  else
    .ok (dst, d)

/-- The `for i in 0..n_elms` loop of `Decompressor::copy_largest_bucket`
(src/decomp.rs). -/
def Decompressor.take_elements :
    Nat → Decompressor → List Nat → Except String (List Nat × Decompressor)
  | 0, d, dst => .ok (dst, d)
  | k + 1, d, dst =>
    match d.current with
    | [] => .error "large element not found"
    | el :: remaining =>
      Decompressor.take_elements k { d with current := remaining } (dst ++ [el])

/-- Translation of `Decompressor::copy_largest_bucket` (src/decomp.rs). -/
def Decompressor.copy_largest_bucket (d : Decompressor) (dst : List Nat) :
    Except String (List Nat × Decompressor) :=
  Decompressor.take_elements (d.sizes.getD 1 0) d dst

/-- The `for i in 0..5` loop of `Decompressor::unpack_unique_values`
(src/decomp.rs), with `k` iterations left and `i` the current index. -/
def Decompressor.unique_buckets_loop (bucket_bounds pack_counts : List Nat) :
    Nat → Nat → Decompressor → List Nat → Except String (List Nat × Decompressor)
  | 0, _, d, dst => .ok (dst, d)
  | k + 1, i, d, dst => do
    let (dst, d) ← d.unpack_felts (d.sizes.getD (i + 2) 0)
      (bucket_bounds.getD (i + 1) 0) (pack_counts.getD i 0) dst
    Decompressor.unique_buckets_loop bucket_bounds pack_counts k (i + 1) d dst

/-- Translation of `Decompressor::unpack_unique_values` (src/decomp.rs). -/
def Decompressor.unpack_unique_values (d : Decompressor) (dst : List Nat) :
    Except String (List Nat × Decompressor) := do
  let bucket_bounds := make_bucket_bounds
  let pack_counts : List Nat := [2, 3, 4, 8, 16]
  let (dst, d) ← d.copy_largest_bucket dst
  Decompressor.unique_buckets_loop bucket_bounds pack_counts 5 0 d dst

/-- Translation of `Decompressor::unpack_repeating_value_pointers`
(src/decomp.rs). -/
def Decompressor.unpack_repeating_value_pointers (d : Decompressor)
    (n_unique_values : Nat) : Except String (List Nat × Decompressor) := do
  let n_repeating_values := d.sizes.getD 7 0
  let pointer_bound := n_unique_values
  let n_elms_per_felt := get_n_elms_per_felt n_unique_values
  d.unpack_felts n_repeating_values pointer_bound n_elms_per_felt []

/-- Translation of `Decompressor::unpack_repeating_values` (src/decomp.rs). -/
def Decompressor.unpack_repeating_values (d : Decompressor)
    (src_and_dst : List Nat) : Except String (List Nat × Decompressor) := do
  let (pointers, d) ← d.unpack_repeating_value_pointers src_and_dst.length
  .ok (extend_with_repeats src_and_dst pointers, d)

/-- Translation of `Decompressor::unpack_bucket_index_per_elm`
(src/decomp.rs). -/
def Decompressor.unpack_bucket_index_per_elm (d : Decompressor) :
    Except String (List Nat × Decompressor) := do
  let total_n_buckets := TOTAL_N_BUCKETS
  let n_elms_per_felt : Nat := 83
  d.unpack_felts (d.sizes.getD 0 0) total_n_buckets n_elms_per_felt []

/-- Loop body of `Decompressor::reconstruct_data` (src/decomp.rs): walk the
bucket indices, reading and bumping the per-bucket offset tracker.  The source
indexes `offset_trackers[idx]` and `all_values[*offset]` directly (panicking
if out of bounds; unreachable per the source comments), modelled with `0`
defaults. -/
def reconstruct_data_loop (all_values : List Nat) :
    List Nat → List Nat → List Nat → List Nat
  | _, [], data => data
  | offset_trackers, bucket_index :: rest, data =>
    let idx := bucket_index
    let offset := offset_trackers.getD idx 0
    let val := all_values.getD offset 0
    reconstruct_data_loop all_values (offset_trackers.set idx (offset + 1)) rest
      (data ++ [val])

/-- Translation of `Decompressor::reconstruct_data` (src/decomp.rs);
`&self.sizes[1..=7]` is the 7-element slice starting at index 1. -/
def Decompressor.reconstruct_data (d : Decompressor)
    (all_values bucket_index_per_elm : List Nat) : List Nat :=
  let offset_trackers := get_bucket_offsets ((d.sizes.drop 1).take 7)
  reconstruct_data_loop all_values offset_trackers bucket_index_per_elm []

/-- Bounds-checked variant of `reconstruct_data_loop`: fails (with `none`,
standing for a hypothetical "bucket index out of range" failure) whenever a
bucket index does not index into `offset_trackers`.  Used to state that such
a failure cannot occur. -/
def reconstruct_data_loop_checked (all_values : List Nat) :
    List Nat → List Nat → List Nat → Option (List Nat)
  | _, [], data => some data
  | offset_trackers, bucket_index :: rest, data =>
    let idx := bucket_index
    if idx < offset_trackers.length then
      let offset := offset_trackers.getD idx 0
      let val := all_values.getD offset 0
      reconstruct_data_loop_checked all_values (offset_trackers.set idx (offset + 1))
        rest (data ++ [val])
    else
      none

/-- Bounds-checked variant of `Decompressor.reconstruct_data` (bucket indices
only; see `reconstruct_data_loop_checked`). -/
def Decompressor.reconstruct_data_checked (d : Decompressor)
    (all_values bucket_index_per_elm : List Nat) : Option (List Nat) :=
  let offset_trackers := get_bucket_offsets ((d.sizes.drop 1).take 7)
  reconstruct_data_loop_checked all_values offset_trackers bucket_index_per_elm []

/-- Loop body of `Decompressor::check_zero_tail` (src/decomp.rs). -/
def check_zero_tail_loop : List Nat → Except String Nat
  | [] => .ok 0
  | el :: rest =>
    if el != 0 then .error "Extra tail"
    else do
      let n ← check_zero_tail_loop rest
      .ok (n + 1)

/-- Translation of `Decompressor::check_zero_tail` (src/decomp.rs). -/
def Decompressor.check_zero_tail (d : Decompressor) : Except String Nat :=
  check_zero_tail_loop d.current

/-- Translation of `Decompressor::decompress` (src/decomp.rs). -/
def Decompressor.decompress (input : List Nat) : Except String (List Nat × Nat) := do
  match input with
  | [] => .error "nothing to decompress"
  | header :: iter =>
    let sizes ← unpack_header header
    let d : Decompressor := { current := iter, sizes := sizes }
    let (all_values, d) ← d.unpack_unique_values []
    let n_unique_values := all_values.length
    let uncompressed_len := d.sizes.getD 0 0
    let n_repeating_values := d.sizes.getD 7 0
    if uncompressed_len != n_unique_values + n_repeating_values then
      .error "uncompressed length mismatch"
    else do
      let (all_values, d) ← d.unpack_repeating_values all_values
      let (bucket_index_per_elm, d) ← d.unpack_bucket_index_per_elm
      let data := d.reconstruct_data all_values bucket_index_per_elm
      let n ← d.check_zero_tail
      .ok (data, n)

/-! ### transform.rs -/

def FIELD_ELEMENTS_PER_BLOB : Nat := 4096

/-- Translation of `TransConst` (src/transform.rs). -/
structure TransConst where
  bls_modulus : Nat
  generator : Nat
  two : Nat
deriving DecidableEq

/-- The BLS12-381 scalar-field prime (src/transform.rs `bls_modulus`); field
elements of the data model are bounded by it. -/
def BLS_MODULUS : Nat :=
  52435875175126190479447740508185965837690552500527637822603658699938581184513

/-- The primitive 4096-th root of unity used by transform.rs (`generator`). -/
def GENERATOR : Nat :=
  39033254847818212395286706435128746857159659164139250548781411570340225835782

/-- Translation of `TransConst::default` (src/transform.rs). -/
def TransConst.mk_default : TransConst :=
  { bls_modulus := BLS_MODULUS
    generator := GENERATOR
    two := 2 }

/-- Bit reversal of the low `w` bits of `n` (bit `j` of the input becomes bit
`w - 1 - j` of the output); `bit_reverse 16` models `u16::reverse_bits`
(`transform.rs` applies it to `i as u16` with `i < 4096`). -/
def bit_reverse : Nat → Nat → Nat
  | 0, _ => 0
  | w + 1, n => 2 * bit_reverse w n + (if n.testBit w then 1 else 0)

/-- Translation of `Transformer` (src/transform.rs). -/
structure Transformer where
  big_const : TransConst
  points : List Nat
deriving DecidableEq

/-- Translation of `Transformer::gen_exp_mod` (src/transform.rs);
`BigUint::modpow` computes exactly `generator ^ exponent % bls_modulus`. -/
def Transformer.gen_exp_mod (big_const : TransConst) (exponent : Nat) : Nat :=
  big_const.generator ^ exponent % big_const.bls_modulus

/-- Translation of `Transformer::new` (src/transform.rs). -/
def Transformer.new : Transformer :=
  let big_const := TransConst.mk_default
  let points := (List.range FIELD_ELEMENTS_PER_BLOB).map (fun i =>
    let s := i
    let r := bit_reverse 16 s
    Transformer.gen_exp_mod big_const (r / 16))
  { big_const := big_const, points := points }

/-- Translation of `Transformer::div_mod` (src/transform.rs): division as
multiplication by the Fermat inverse `b ^ (P - 2) mod P`. -/
def Transformer.div_mod (t : Transformer) (a b : Nat) : Nat :=
  let e := t.big_const.bls_modulus - t.big_const.two
  let pow := b ^ e % t.big_const.bls_modulus
  a * pow % t.big_const.bls_modulus

/-- The even-position pairing `(arr[2 i], arr[2 i + 1])` for
`i < arr.len() / 2`, as read by the loop of `Transformer::ifft`. -/
def chunk_pairs : List Nat → List (Nat × Nat)
  | a :: b :: rest => (a, b) :: chunk_pairs rest
  | _ => []

/-- Translation of `Transformer::ifft` (src/transform.rs), with an explicit
recursion-depth bound `fuel` standing in for the non-structural recursion of
the source.  `Transformer.ifft` below instantiates `fuel := arr.length`,
which dominates the recursion depth (the list length at least halves in each
recursive call), so the `fuel = 0` base case is unreachable there.  The
source loop reads `arr[2 i]`, `arr[2 i + 1]` and `xs[2 i]` for
`i < arr.len() / 2` (panicking if `xs` is shorter; all call sites pass
equally long lists, the model truncates to the shorter one), the merge loop
reads `merged_res0[i]` and `merged_res1[i]` (a `0` default stands for the
unreachable panic), and an empty `arr` would make the source recurse forever
(here the length-0 branch returns `[]`). -/
def Transformer.ifft_fuel (t : Transformer) : Nat → List Nat → List Nat → List Nat
  | 0, arr, _ => arr
  | fuel + 1, arr, xs =>
    if arr.length = 1 then arr
    else if arr.length = 0 then []
    else
      let n := arr.length / 2
      let ps := (chunk_pairs arr).zip (chunk_pairs xs)
      let res0 := ps.map (fun p => t.div_mod (p.1.1 + p.1.2) t.big_const.two)
      let res1 := ps.map (fun p =>
        let diff :=
          if p.1.2 > p.1.1 then t.big_const.bls_modulus - (p.1.2 - p.1.1)
          else p.1.1 - p.1.2
        t.div_mod diff (t.big_const.two * p.2.1))
      let new_xs := ps.map (fun p => p.2.1 * p.2.1 % t.big_const.bls_modulus)
      let merged_res0 := t.ifft_fuel fuel res0 new_xs
      let merged_res1 := t.ifft_fuel fuel res1 new_xs
      (List.range n).flatMap (fun i => [merged_res0.getD i 0, merged_res1.getD i 0])

/-- Translation of `Transformer::ifft` (src/transform.rs); see
`Transformer.ifft_fuel`. -/
def Transformer.ifft (t : Transformer) (arr xs : List Nat) : List Nat :=
  t.ifft_fuel arr.length arr xs

/-- Translation of `Transformer::transform` (src/transform.rs). -/
def Transformer.transform (t : Transformer) (arr : List Nat) : List Nat :=
  t.ifft arr t.points

/-! ### lookup.rs -/

def START_INDEX : Nat := 128

/-- Model of the `redb` store behind `Lookup` (src/lookup.rs): `lookup_table`
(u64 key to big-endian `BigUint` bytes, modelled as index to value, kept
sorted by key like the B-tree), and the two `phase_change` entries, keys
"crest" and "stateful".  An absent table and an absent key are both `none` /
the empty list. -/
structure Db where
  lookup_table : List (Nat × Nat)
  crest : Option Nat
  stateful_start : Option Nat
deriving DecidableEq

/-- Sorted-association-list insertion returning the previous value at the
key, modelling `BTreeMap::insert` (scratchpad) and `redb` `Table::insert`. -/
def map_insert : List (Nat × Nat) → Nat → Nat → Option Nat × List (Nat × Nat)
  | [], index, value => (none, [(index, value)])
  | (k, w) :: rest, index, value =>
    if index < k then (none, (index, value) :: (k, w) :: rest)
    else if index = k then (some w, (index, value) :: rest)
    else
      ((map_insert rest index value).1, (k, w) :: (map_insert rest index value).2)

/-- Sorted-association-list lookup, modelling `BTreeMap`/`redb` `get`. -/
def map_get : List (Nat × Nat) → Nat → Option Nat
  | [], _ => none
  | (k, w) :: rest, index => if index = k then some w else map_get rest index

/-- Translation of `Lookup` (src/lookup.rs); the scratchpad `BTreeMap` is a
sorted association list (so that iteration order is ascending key order). -/
structure Lookup where
  global_start_index : Nat
  scratchpad : List (Nat × Nat)
  cur_block_no : Option Nat
  db : Db
deriving DecidableEq

/-- Translation of `Lookup::new` (src/lookup.rs); `Database::create` yields
the given store contents (empty for a fresh file). -/
def Lookup.new (db : Db) : Lookup :=
  { global_start_index := START_INDEX
    scratchpad := []
    cur_block_no := none
    db := db }

/-- Translation of `Lookup::set_block_no` (src/lookup.rs). -/
def Lookup.set_block_no (lk : Lookup) (cur_block_no : Nat) : Lookup :=
  { lk with cur_block_no := some cur_block_no }

/-- Translation of `Lookup::record` (src/lookup.rs): on a repeated index the
old value is re-inserted and an error returned. -/
def Lookup.record (lk : Lookup) (index value : Nat) :
    Except String Unit × Lookup :=
  if index < START_INDEX then
    (.error "index too small", lk)
  else
    match map_insert lk.scratchpad index value with
    | (some old, sp) =>
      (.error "index repeated", { lk with scratchpad := (map_insert sp index old).2 })
    | (none, sp) => (.ok (), { lk with scratchpad := sp })

/-- Translation of `Lookup::get_table_size` (src/lookup.rs); a missing table
is the empty list, and the model's store reads are infallible. -/
def Lookup.get_table_size (lk : Lookup) : Nat :=
  lk.db.lookup_table.length

/-- Translation of `Lookup::get_cur_block_no` (src/lookup.rs). -/
def Lookup.get_cur_block_no (lk : Lookup) : Except String Nat :=
  match lk.cur_block_no with
  | some b => .ok b
  | none => .error "Lookup.cur_block_no not set"

/-- Translation of `Lookup::get_crest` (src/lookup.rs). -/
def Lookup.get_crest (lk : Lookup) : Option Nat :=
  lk.db.crest

/-- Translation of `Lookup::get_scratchpad_size` (src/lookup.rs). -/
def Lookup.get_scratchpad_size (lk : Lookup) : Nat :=
  lk.scratchpad.length

/-- Translation of `Lookup::get` (src/lookup.rs). -/
def Lookup.get (lk : Lookup) (index : Nat) : Except String Nat :=
  if index < START_INDEX then
    .error "index is too small"
  else
    match map_get lk.db.lookup_table index with
    | some found => .ok found
    | none => .error "index not found"

/-- Translation of `Lookup::is_on` (src/lookup.rs). -/
def Lookup.is_on (lk : Lookup) : Except String Bool := do
  match lk.db.stateful_start with
  | none => .ok false
  | some start_no =>
    let block_no ← lk.get_cur_block_no
    if block_no < start_no then .ok false
    else .ok !lk.db.lookup_table.isEmpty

/-- Translation of `Lookup::set_expansion` (src/lookup.rs), writing into the
open transaction.  The source `assert!(opt_old.is_none())` (a panic, not an
error; unreachable because the caller feeds strictly increasing fresh
indices) is not modelled. -/
def Db.set_expansion (txn : Db) (index value : Nat) : Db :=
  { txn with lookup_table := (map_insert txn.lookup_table index value).2 }

/-- Translation of `Lookup::set_stateful_compression` (src/lookup.rs). -/
def Lookup.set_stateful_compression (lk : Lookup) (txn : Db) : Except String Db := do
  let block_no ← lk.get_cur_block_no
  let updated := txn.crest.isNone
  let txn := { txn with crest := some block_no }
  if updated then .ok { txn with stateful_start := some block_no }
  else .ok txn

/-- The `for (index, value) in scratchpad` loop of `Lookup::do_expand`
(src/lookup.rs), threading `first`, the running size `sz` and the open write
transaction.  `index - START_INDEX` is the source's u64 subtraction (indices
recorded into the scratchpad are always at least 128). -/
def expand_loop : List (Nat × Nat) → Bool → Nat → Db → Except String (Nat × Db)
  | [], _, sz, txn => .ok (sz, txn)
  | (index, value) :: rest, first, sz, txn =>
    if index - START_INDEX != sz then
      .error (if first then "lookup table not complete" else "index not consecutive")
    else
      expand_loop rest false (sz + 1) (txn.set_expansion index value)

/-- Translation of `Lookup::do_expand` (src/lookup.rs): the scratchpad is
taken (emptied) up front; the transaction is committed (stored into `db`)
only when every step succeeded, an early error drops it. -/
def Lookup.do_expand (lk : Lookup) : Except String Unit × Lookup :=
  let scratchpad := lk.scratchpad
  let lk := { lk with scratchpad := [] }
  let sz := lk.get_table_size
  let txn := lk.db
  match expand_loop scratchpad true sz txn with
  | .error e => (.error e, lk)
  | .ok (_, txn) =>
    match lk.set_stateful_compression txn with
    | .error e => (.error e, lk)
    | .ok txn => (.ok (), { lk with db := txn })

/-- Translation of `Lookup::expand` (src/lookup.rs): clears the scratchpad
(even) on error; a replay (`block_no ≤ crest`) only clears the scratchpad. -/
def Lookup.expand (lk : Lookup) : Except String Unit × Lookup :=
  match lk.get_crest with
  | some crest =>
    match lk.get_cur_block_no with
    | .error e => (.error e, lk)
    | .ok block_no =>
      if block_no ≤ crest then
        (.ok (), { lk with scratchpad := [] })
      else
        lk.do_expand
  | none => lk.do_expand

/-! ### state_diff.rs / parser.rs -/

/-- Translation of `StorageUpdate` (src/state_diff.rs). -/
structure StorageUpdate where
  key : Nat
  value : Nat
deriving DecidableEq

/-- Translation of `ContractUpdate` (src/state_diff.rs). -/
structure ContractUpdate where
  address : Nat
  nonce : Nat
  new_class_hash : Option Nat
  storage_updates : List StorageUpdate
deriving DecidableEq

/-- Translation of `ClassDeclaration` (src/state_diff.rs). -/
structure ClassDeclaration where
  class_hash : Nat
  compiled_class_hash : Nat
deriving DecidableEq

/-- Modelled from the spec: `BlockRange` (the optional `(min_seq_no,
max_seq_no)` pair observed on the sentinel contract) is used by src/parser.rs
but its definition is missing from the provided src/state_diff.rs. -/
structure BlockRange where
  min_seq_no : Option Nat
  max_seq_no : Option Nat
deriving DecidableEq

/-- Translation of `StateDiff` as constructed by `StateUpdateParser::parse`
(src/parser.rs); the `range` and `tail_size` fields are missing from the
provided src/state_diff.rs and follow their use in parser.rs and the spec. -/
structure StateDiff where
  contract_updates : List ContractUpdate
  class_declarations : List ClassDeclaration
  range : BlockRange
  tail_size : Nat
deriving DecidableEq

/-- Translation of `LookupUsageState` (src/parser.rs). -/
inductive LookupUsageState where
  | Off
  | One
  | Expand
  | On
deriving DecidableEq

/-- State of `StateUpdateParser` (src/parser.rs): the element iterator is
`current`; the shared `Rc<RefCell<Lookup>>` is threaded by value; the
annotation sink is write-only and not modelled (its writes are treated as
infallible).  The `pack_const` field is passed to each function explicitly.
On an error path the final lookup state is not observable from the model
(the source's shared cell would retain it). -/
structure PState where
  current : List Nat
  lookup_usage_state : LookupUsageState
  lookup : Lookup
  range : BlockRange
deriving DecidableEq

namespace StateUpdateParser

/-- The address-resolution `match self.lookup_usage_state` block of
`StateUpdateParser::parse_contract_update` (src/parser.rs).  parser.rs uses
`self.lookup.borrow().is_on()` in boolean position while the provided
lookup.rs declares `is_on` fallible; the model propagates `is_on` errors
like a `?`. -/
def resolve_address (pc : PackConst) (st : PState) (address : Nat) :
    Except String (Nat × PState) :=
  match st.lookup_usage_state with
  | .Off =>
    if address = pc.one then
      .ok (address, { st with lookup_usage_state := .One })
    else
      .ok (address, st)
  | .One =>
    if address = pc.two then
      .ok (address, { st with lookup_usage_state := .Expand })
    else do
      let ison ← st.lookup.is_on
      if ison && decide (address > pc.two) then do
        let index ← parse_usize address
        let addr ← st.lookup.get index
        .ok (addr, { st with lookup_usage_state := .On })
      else
        .ok (address, { st with lookup_usage_state := .Off })
  | .Expand =>
    .error "contract address encountered in unexpected lookup state Expand"
  | .On => do
    let index ← parse_usize address
    let addr ← st.lookup.get index
    .ok (addr, st)

/-- Translation of `StateUpdateParser::parse_storage_update` (src/parser.rs).
`key.to_u64()` is the 64-bit bound check. -/
def parse_storage_update (st : PState) :
    Except String (StorageUpdate × PState) :=
  match st.current with
  | [] => .error "Missing storage address"
  | key :: rest1 =>
    match rest1 with
    | [] => .error "Missing storage value"
    | value :: rest2 =>
      let st := { st with current := rest2 }
      match st.lookup_usage_state with
      | .Off => .ok ({ key := key, value := value }, st)
      | .One =>
        if key < 2 ^ 64 then
          let seq_no := key
          let min2 :=
            match st.range.min_seq_no with
            | some old => if seq_no < old then some seq_no else some old
            | none => some seq_no
          let max2 :=
            match st.range.max_seq_no with
            | some old => if seq_no > old then some seq_no else some old
            | none => some seq_no
          .ok ({ key := key, value := value },
               { st with range := { min_seq_no := min2, max_seq_no := max2 } })
        else
          .error "Casting 0x1 key"
      | .Expand =>
        if key = 0 then
          .ok ({ key := key, value := value }, st)
        else do
          let index ← parse_usize value
          let (r, lk) := st.lookup.record index key
          let st := { st with lookup := lk }
          match r with
          | .error e => .error e
          | .ok _ => .ok ({ key := key, value := value }, st)
      | .On =>
        if key ≥ st.lookup.global_start_index then do
          let index ← parse_usize key
          let key2 ← st.lookup.get index
          .ok ({ key := key2, value := value }, st)
        else
          .ok ({ key := key, value := value }, st)

/-- The `(0..update_count).map(|i| self.parse_storage_update())` collection of
`StateUpdateParser::parse_contract_update` (src/parser.rs). -/
def parse_storage_updates : Nat → PState → Except String (List StorageUpdate × PState)
  | 0, st => .ok ([], st)
  | n + 1, st => do
    let (su, st) ← parse_storage_update st
    let (rest, st) ← parse_storage_updates n st
    .ok (su :: rest, st)

/-- The final `match self.lookup_usage_state` block of
`StateUpdateParser::parse_contract_update` (src/parser.rs): in state
`Expand`, run `lookup.expand()` and move to `On`. -/
def expand_if_needed (st : PState) : Except String PState :=
  match st.lookup_usage_state with
  | .Expand =>
    match st.lookup.expand with
    | (.error e, _) => .error e
    | (.ok _, lk) => .ok { st with lookup := lk, lookup_usage_state := .On }
  | _ => .ok st

/-- Translation of `StateUpdateParser::parse_contract_update`
(src/parser.rs). -/
def parse_contract_update (pc : PackConst) (st : PState) :
    Except String (ContractUpdate × PState) :=
  match st.current with
  | [] => .error "Missing contract address"
  | address :: rest =>
    let st := { st with current := rest }
    if address = 0 then
      .error "Zero address"
    else do
      let (addr, st) ← resolve_address pc st address
      match st.current with
      | [] => .error "Missing contract packed data"
      | packed :: rest =>
        let st := { st with current := rest }
        do
        let (class_flag, nonce, update_count) ← pc.unpack_contract_update packed
        let (new_class_hash, st) ←
          if class_flag then
            match st.current with
            | [] => Except.error "Missing new class hash"
            | hash :: rest => Except.ok (some hash, { st with current := rest })
          else
            Except.ok (none, st)
        let (storage_updates, st) ← parse_storage_updates update_count st
        let st ← expand_if_needed st
        .ok ({ address := addr, nonce := nonce, new_class_hash := new_class_hash,
               storage_updates := storage_updates }, st)

/-- The `(0..num_contracts).map(..).collect()` loop of
`StateUpdateParser::parse_contract_updates` (src/parser.rs). -/
def parse_contract_updates_loop (pc : PackConst) :
    Nat → PState → Except String (List ContractUpdate × PState)
  | 0, st => .ok ([], st)
  | n + 1, st => do
    let (cu, st) ← parse_contract_update pc st
    let (rest, st) ← parse_contract_updates_loop pc n st
    .ok (cu :: rest, st)

/-- Translation of `StateUpdateParser::parse_contract_updates`
(src/parser.rs). -/
def parse_contract_updates (pc : PackConst) (st : PState) :
    Except String (List ContractUpdate × PState) :=
  match st.current with
  | [] => .error "Missing number of contract updates"
  | raw_num_contracts :: rest =>
    let st := { st with current := rest }
    match parse_usize raw_num_contracts with
    | .error _ => .error "Parsing number of contract updates"
    | .ok num_contracts => parse_contract_updates_loop pc num_contracts st

/-- Translation of `StateUpdateParser::parse_class_declaration`
(src/parser.rs). -/
def parse_class_declaration (st : PState) :
    Except String (ClassDeclaration × PState) :=
  match st.current with
  | [] => .error "Missing class hash"
  | class_hash :: rest1 =>
    match rest1 with
    | [] => .error "Missing compiled class hash"
    | compiled_class_hash :: rest2 =>
      .ok ({ class_hash := class_hash, compiled_class_hash := compiled_class_hash },
           { st with current := rest2 })

/-- The `(0..num_decls).map(..).collect()` loop of
`StateUpdateParser::parse_class_declarations` (src/parser.rs). -/
def parse_class_declarations_loop :
    Nat → PState → Except String (List ClassDeclaration × PState)
  | 0, st => .ok ([], st)
  | n + 1, st => do
    let (cd, st) ← parse_class_declaration st
    let (rest, st) ← parse_class_declarations_loop n st
    .ok (cd :: rest, st)

/-- Translation of `StateUpdateParser::parse_class_declarations`
(src/parser.rs). -/
def parse_class_declarations (st : PState) :
    Except String (List ClassDeclaration × PState) :=
  match st.current with
  | [] => .error "Missing number of class declarations"
  | raw_num_decls :: rest =>
    let st := { st with current := rest }
    match parse_usize raw_num_decls with
    | .error _ => .error "Parsing number of class declarations"
    | .ok num_decls => parse_class_declarations_loop num_decls st

/-- Translation of `StateUpdateParser::parse` (src/parser.rs); the final
`Lookup` (the shared cell's content at return) is returned alongside the
`StateDiff`. -/
def parse (input : List Nat) (unpacker : PackConst) (lookup : Lookup) :
    Except String (StateDiff × Lookup) := do
  let st : PState :=
    { current := input
      lookup_usage_state := .Off
      lookup := lookup
      range := { min_seq_no := none, max_seq_no := none } }
  let (contract_updates, st) ← parse_contract_updates unpacker st
  let (class_declarations, st) ← parse_class_declarations st
  let n ← check_zero_tail_loop st.current
  .ok ({ contract_updates := contract_updates
         class_declarations := class_declarations
         range := st.range
         tail_size := n }, st.lookup)

end StateUpdateParser

/-! ### Concrete fixtures used to instantiate the theorems -/

/-- An empty store (fresh database file). -/
def db0 : Db := { lookup_table := [], crest := none, stateful_start := none }

/-- A fresh `Lookup` over an empty store. -/
def lk_fresh : Lookup := Lookup.new db0

/-- A `Lookup` whose store has a committed crest (5) above the current block
number (3), with a pending scratchpad entry. -/
def lk_replay : Lookup :=
  { global_start_index := START_INDEX
    scratchpad := [(130, 7)]
    cur_block_no := some 3
    db := { lookup_table := [(128, 11), (129, 12)], crest := some 5, stateful_start := some 2 } }

/-- A `Lookup` whose scratchpad starts at 200 although the committed table is
empty (so its expansion must fail). -/
def lk_gap : Lookup :=
  { global_start_index := START_INDEX
    scratchpad := [(200, 5)]
    cur_block_no := some 9
    db := db0 }

/-- A `Lookup` with a scratchpad entry at index 130 (for the duplicate-record
theorem). -/
def lk_dup : Lookup :=
  { global_start_index := START_INDEX
    scratchpad := [(130, 7)]
    cur_block_no := some 3
    db := db0 }

/-- A decompressor state right before unpacking a one-element bucket-index
stream. -/
def d_c9 : Decompressor := { current := [0], sizes := [1, 1, 0, 0, 0, 0, 0, 0] }

/-! ## Theorems -/

/-! ### Bit-mask helper lemmas -/

lemma land_mask (x a m : Nat) :
    x &&& ((2 ^ a - 1) <<< m) = ((x >>> m) % 2 ^ a) <<< m := by
  apply Nat.eq_of_testBit_eq
  intro i
  rw [Nat.testBit_and, Nat.testBit_shiftLeft, Nat.testBit_shiftLeft,
    Nat.testBit_two_pow_sub_one, Nat.testBit_mod_two_pow, Nat.testBit_shiftRight]
  by_cases h : m ≤ i
  · have hmi : m + (i - m) = i := Nat.add_sub_cancel' h
    simp only [ge_iff_le, h, decide_eq_true_eq, hmi]
    cases hx : x.testBit i <;> cases hd : decide (i - m < a) <;> simp_all
  · simp [ge_iff_le, h]

lemma mask_land_shr (x a m : Nat) :
    (((2 ^ a - 1) <<< m) &&& x) >>> m = (x >>> m) % 2 ^ a := by
  rw [Nat.and_comm, land_mask, Nat.shiftLeft_eq, Nat.shiftRight_eq_div_pow,
    Nat.mul_div_cancel _ (Nat.pos_pow_of_pos m (by norm_num))]

lemma mask_land_eq_zero_iff (x a m : Nat) :
    ((2 ^ a - 1) <<< m) &&& x = 0 ↔ (x >>> m) % 2 ^ a = 0 := by
  rw [Nat.and_comm, land_mask, Nat.shiftLeft_eq, Nat.mul_eq_zero]
  have : (2 : Nat) ^ m ≠ 0 := (Nat.pos_pow_of_pos m (by norm_num)).ne'
  simp [this]

lemma mask_land_eq_zero_iff_lt (x a m : Nat) (hx : x < 2 ^ (m + a)) :
    ((2 ^ a - 1) <<< m) &&& x = 0 ↔ x < 2 ^ m := by
  rw [mask_land_eq_zero_iff]
  have hpow : 0 < (2 : Nat) ^ m := Nat.pos_pow_of_pos m (by norm_num)
  have hsm : x >>> m < 2 ^ a := by
    rw [Nat.shiftRight_eq_div_pow]
    rw [Nat.div_lt_iff_lt_mul hpow]
    calc x < 2 ^ (m + a) := hx
    _ = 2 ^ a * 2 ^ m := by rw [Nat.pow_add, Nat.mul_comm]
  rw [Nat.mod_eq_of_lt hsm, Nat.shiftRight_eq_div_pow,
    Nat.div_eq_zero_iff hpow]

lemma one_land_bne (x : Nat) : ((1 &&& x : Nat) != 0) = x.testBit 0 := by
  rw [Nat.and_comm, Nat.and_one_is_mod, Nat.testBit_to_div_mod]
  rcases Nat.mod_two_eq_zero_or_one x with h | h <;> simp [h]

lemma two_land_eq_zero_iff (x : Nat) : (2 &&& x : Nat) = 0 ↔ x.testBit 1 = false := by
  have h2 : (2 : Nat) = (2 ^ 1 - 1) <<< 1 := by rw [Nat.shiftLeft_eq]; norm_num
  rw [h2, mask_land_eq_zero_iff, Nat.testBit_to_div_mod, Nat.shiftRight_eq_div_pow]
  rcases Nat.mod_two_eq_zero_or_one (x / 2 ^ 1) with h | h <;> simp [h]

/-! ### C1: v0.13.3 contract-update unpacking -/

lemma unpack_v0_13_3_long (packed : Nat) (h2 : packed.testBit 1 = false)
    (hlt : packed < 2 ^ 256) :
    v0_13_3.make_pack_const.unpack_contract_update packed =
      if packed < 2 ^ 130 then
        .ok (packed.testBit 0, packed >>> 66 % 2 ^ 64, packed >>> 2 % 2 ^ 64)
      else
        .error "Extra high bits" := by
  have hsf : (2 &&& packed : Nat) = 0 := (two_land_eq_zero_iff packed).mpr h2
  have htop :
      ((2 ^ 126 - 1) <<< 130) &&& packed = 0 ↔ packed < 2 ^ 130 :=
    mask_land_eq_zero_iff_lt packed 126 130 (by norm_num at hlt ⊢; omega)
  by_cases hc : packed < 2 ^ 130
  · have h0 : ((2 ^ 126 - 1) <<< 130) &&& packed = 0 := htop.mpr hc
    simp only [PackConst.unpack_contract_update, v0_13_3.make_pack_const,
      Nat.one_shiftLeft, hsf, h0, bne_self_eq_false, Bool.false_eq_true,
      if_false, hc, if_true, mask_land_shr, one_land_bne]
  · have h0 : ((2 ^ 126 - 1) <<< 130) &&& packed ≠ 0 := fun h => hc (htop.mp h)
    have hbne : (((2 ^ 126 - 1) <<< 130) &&& packed != 0) = true := by
      simpa using h0
    simp only [PackConst.unpack_contract_update, v0_13_3.make_pack_const,
      Nat.one_shiftLeft, hsf, bne_self_eq_false, Bool.false_eq_true, if_false, hc,
      hbne, if_true]

lemma unpack_v0_13_3_short (packed : Nat) (h2 : packed.testBit 1 = true)
    (hlt : packed < 2 ^ 256) :
    v0_13_3.make_pack_const.unpack_contract_update packed =
      if packed < 2 ^ 74 then
        .ok (packed.testBit 0, packed >>> 10 % 2 ^ 64, packed >>> 2 % 2 ^ 8)
      else
        .error "Extra high bits" := by
  have hsf : (2 &&& packed : Nat) ≠ 0 := by
    rw [Ne, two_land_eq_zero_iff, h2]
    simp
  have hsfb : ((2 &&& packed : Nat) != 0) = true := by simpa using hsf
  have htop :
      ((2 ^ 182 - 1) <<< 74) &&& packed = 0 ↔ packed < 2 ^ 74 :=
    mask_land_eq_zero_iff_lt packed 182 74 (by norm_num at hlt ⊢; omega)
  by_cases hc : packed < 2 ^ 74
  · have h0 : ((2 ^ 182 - 1) <<< 74) &&& packed = 0 := htop.mpr hc
    simp only [PackConst.unpack_contract_update, v0_13_3.make_pack_const,
      Nat.one_shiftLeft, hsfb, if_true, h0, bne_self_eq_false, Bool.false_eq_true,
      if_false, hc, show (255 : Nat) = 2 ^ 8 - 1 from by norm_num,
      mask_land_shr, one_land_bne]
  · have h0 : ((2 ^ 182 - 1) <<< 74) &&& packed ≠ 0 := fun h => hc (htop.mp h)
    have hbne : (((2 ^ 182 - 1) <<< 74) &&& packed != 0) = true := by
      simpa using h0
    simp only [PackConst.unpack_contract_update, v0_13_3.make_pack_const,
      Nat.one_shiftLeft, hsfb, if_true, hbne, hc, if_false, Bool.false_eq_true]

/-- C1: with the v0.13.3 `PackConst`, `unpack_contract_update` selects the
layout by bit 1 and reads bit 0 as `class_flag` in both layouts; the long
layout returns `update_count` = bits [2, 66) and `nonce` = bits [66, 130) and
errors exactly when a bit at position at least 130 is set, the short layout
returns `update_count` = bits [2, 10) and `nonce` = bits [10, 74) and errors
exactly when a bit at position at least 74 is set; moreover inputs 46, 3074
and 0x5b8 unpack to `(false, 0, 11)`, `(false, 3, 0)` and `(false, 0, 366)`
respectively (result order is `(class_flag, nonce, update_count)`). -/
theorem C1_unpack_contract_update_v0_13_3 (packed : Nat)
    (h : packed < BLS_MODULUS) :
    (v0_13_3.make_pack_const.unpack_contract_update packed =
      if packed.testBit 1 then
        (if packed < 2 ^ 74 then
          .ok (packed.testBit 0, packed / 2 ^ 10 % 2 ^ 64, packed / 2 ^ 2 % 2 ^ 8)
        else
          .error "Extra high bits")
      else
        (if packed < 2 ^ 130 then
          .ok (packed.testBit 0, packed / 2 ^ 66 % 2 ^ 64, packed / 2 ^ 2 % 2 ^ 64)
        else
          .error "Extra high bits")) ∧
    v0_13_3.make_pack_const.unpack_contract_update 46 = .ok (false, 0, 11) ∧
    v0_13_3.make_pack_const.unpack_contract_update 3074 = .ok (false, 3, 0) ∧
    v0_13_3.make_pack_const.unpack_contract_update 0x5b8 = .ok (false, 0, 366) := by
  refine ⟨?_, by rfl, by rfl, by rfl⟩
  have hlt : packed < 2 ^ 256 := by
    have : BLS_MODULUS < 2 ^ 256 := by norm_num [BLS_MODULUS]
    omega
  cases h2 : packed.testBit 1 with
  | true =>
    rw [unpack_v0_13_3_short packed h2 hlt]
    simp only [if_true, Nat.shiftRight_eq_div_pow]
  | false =>
    rw [unpack_v0_13_3_long packed h2 hlt]
    simp only [Bool.false_eq_true, if_false, Nat.shiftRight_eq_div_pow]

/-- C1 witness: the theorem applied at the concrete field element 46. -/
theorem C1_unpack_contract_update_v0_13_3_witness :
    v0_13_3.make_pack_const.unpack_contract_update 46 =
      if (46 : Nat).testBit 1 then
        (if (46 : Nat) < 2 ^ 74 then
          .ok ((46 : Nat).testBit 0, 46 / 2 ^ 10 % 2 ^ 64, 46 / 2 ^ 2 % 2 ^ 8)
        else
          .error "Extra high bits")
      else
        (if (46 : Nat) < 2 ^ 130 then
          .ok ((46 : Nat).testBit 0, 46 / 2 ^ 66 % 2 ^ 64, 46 / 2 ^ 2 % 2 ^ 64)
        else
          .error "Extra high bits") :=
  (C1_unpack_contract_update_v0_13_3 46 (by norm_num [BLS_MODULUS])).1

/-! ### C7: get_n_elms_per_felt -/

lemma size_eq_of_bounds (p k : Nat) (h1 : 2 ^ k ≤ p) (h2 : p < 2 ^ (k + 1)) :
    Nat.size p = k + 1 :=
  Nat.le_antisymm (Nat.size_le.mpr h2) (Nat.lt_size.mpr h1)

lemma size_pred_eq_clog (b : Nat) (hb : 2 ≤ b) :
    Nat.size (b - 1) = Nat.clog 2 b := by
  have hp : 1 ≤ b - 1 := by omega
  have h1 : b - 1 < 2 ^ Nat.size (b - 1) := Nat.lt_size_self _
  have hs1 : 1 ≤ Nat.size (b - 1) := Nat.lt_size.mpr (by simpa using hp)
  have h2 : 2 ^ (Nat.size (b - 1) - 1) ≤ b - 1 := Nat.lt_size.mp (by omega)
  have hub : b ≤ 2 ^ Nat.size (b - 1) := by omega
  have hlb : 2 ^ (Nat.size (b - 1) - 1) < b := by omega
  have hcu : Nat.clog 2 b ≤ Nat.size (b - 1) :=
    (Nat.le_pow_iff_clog_le (by norm_num)).mp hub
  have hcl : ¬Nat.clog 2 b ≤ Nat.size (b - 1) - 1 := by
    intro hcon
    have : b ≤ 2 ^ (Nat.size (b - 1) - 1) :=
      (Nat.le_pow_iff_clog_le (by norm_num)).mpr hcon
    omega
  omega

/-- C7: `get_n_elms_per_felt` is 251 at 2, 83 at 7 and 16 at `2^15 - 1`; it
is 251 for every bound below 2 and `251 / ceil(log2 b)` for every bound
`b ≥ 2`. -/
theorem C7_get_n_elms_per_felt (b : Nat) :
    get_n_elms_per_felt 2 = 251 ∧
    get_n_elms_per_felt 7 = 83 ∧
    get_n_elms_per_felt (2 ^ 15 - 1) = 16 ∧
    get_n_elms_per_felt b = if b < 2 then 251 else 251 / Nat.clog 2 b := by
  have s1 : Nat.size 1 = 1 := Nat.size_one
  have s6 : Nat.size 6 = 3 := size_eq_of_bounds 6 2 (by norm_num) (by norm_num)
  have s32766 : Nat.size 32766 = 15 :=
    size_eq_of_bounds 32766 14 (by norm_num) (by norm_num)
  refine ⟨?_, ?_, ?_, ?_⟩
  · simp [get_n_elms_per_felt, MAX_N_BITS_PER_FELT, s1]
  · simp [get_n_elms_per_felt, MAX_N_BITS_PER_FELT, s6]
  · norm_num [get_n_elms_per_felt, MAX_N_BITS_PER_FELT, s32766]
  · by_cases hb : b < 2
    · simp [get_n_elms_per_felt, hb, MAX_N_BITS_PER_FELT]
    · simp [get_n_elms_per_felt, hb, MAX_N_BITS_PER_FELT,
        size_pred_eq_clog b (by omega)]

/-! ### C6: expand is a no-op on replays -/

/-- C6: when a crest is committed and the current block number is at most the
crest, `Lookup::expand` succeeds, clears the scratchpad, and leaves the
persistent store (the lookup table, its size, and the crest) unchanged. -/
theorem C6_expand_replay (lk : Lookup) (c b : Nat)
    (hcrest : lk.db.crest = some c) (hblk : lk.cur_block_no = some b)
    (hle : b ≤ c) :
    (lk.expand).1 = .ok () ∧
    (lk.expand).2.scratchpad = [] ∧
    (lk.expand).2.db = lk.db ∧
    (lk.expand).2.db.lookup_table = lk.db.lookup_table ∧
    (lk.expand).2.get_table_size = lk.get_table_size ∧
    (lk.expand).2.db.crest = some c := by
  have hexp : lk.expand = (.ok (), { lk with scratchpad := [] }) := by
    simp only [Lookup.expand, Lookup.get_crest, hcrest, Lookup.get_cur_block_no, hblk]
    simp [hle]
  simp [hexp, Lookup.get_table_size, hcrest]

/-- C6 witness: the theorem applied to a concrete `Lookup` with crest 5 and
current block 3. -/
theorem C6_expand_replay_witness :
    (lk_replay.expand).1 = .ok () ∧
    (lk_replay.expand).2.scratchpad = [] ∧
    (lk_replay.expand).2.db = lk_replay.db ∧
    (lk_replay.expand).2.db.lookup_table = lk_replay.db.lookup_table ∧
    (lk_replay.expand).2.get_table_size = lk_replay.get_table_size ∧
    (lk_replay.expand).2.db.crest = some 5 :=
  C6_expand_replay lk_replay 5 3 rfl rfl (by norm_num)

/-! ### C10: record of a duplicate index -/

lemma map_get_eq_none (sp : List (Nat × Nat)) (i : Nat)
    (h : ∀ p ∈ sp, p.1 ≠ i) : map_get sp i = none := by
  induction sp with
  | nil => rfl
  | cons p rest ih =>
    have hp : p.1 ≠ i := h p (by simp)
    simp only [map_get]
    rw [if_neg (fun hc => hp hc.symm)]
    exact ih (fun q hq => h q (by simp [hq]))

lemma map_insert_fst (sp : List (Nat × Nat)) (i v : Nat)
    (hs : List.Pairwise (fun p q : Nat × Nat => p.1 < q.1) sp) :
    (map_insert sp i v).1 = map_get sp i := by
  induction sp with
  | nil => rfl
  | cons p rest ih =>
    obtain ⟨k, u⟩ := p
    rcases List.pairwise_cons.mp hs with ⟨hk, hrest⟩
    by_cases h1 : i < k
    · have hnone : map_get rest i = none :=
        map_get_eq_none rest i (fun q hq => by
          have := hk q hq
          simp only at this
          omega)
      simp only [map_insert, if_pos h1, map_get]
      rw [if_neg (by omega : ¬i = k), hnone]
    · by_cases h2 : i = k
      · simp [map_insert, map_get, h1, h2]
      · simp [map_insert, map_get, h1, h2, ih hrest]

lemma map_insert_restore (sp : List (Nat × Nat)) (i v w : Nat)
    (h : (map_insert sp i v).1 = some w) :
    (map_insert (map_insert sp i v).2 i w).2 = sp := by
  induction sp with
  | nil => simp [map_insert] at h
  | cons p rest ih =>
    obtain ⟨k, u⟩ := p
    by_cases h1 : i < k
    · simp [map_insert, h1] at h
    · by_cases h2 : i = k
      · subst h2
        have e1 : map_insert ((i, u) :: rest) i v = (some u, (i, v) :: rest) := by
          simp [map_insert]
        rw [e1] at h ⊢
        simp only [Option.some.injEq] at h
        have e2 : map_insert ((i, v) :: rest) i w = (some v, (i, w) :: rest) := by
          simp [map_insert]
        rw [e2]
        simp [h]
      · simp only [map_insert, if_neg h1, if_neg h2] at h ⊢
        simp only [List.cons.injEq, true_and]
        exact ih h

/-- C10: recording a value under an index that is already in the scratchpad
fails with "index repeated" and leaves the `Lookup` (in particular the
scratchpad, which still maps the index to the first recorded value)
unchanged. -/
theorem C10_record_duplicate (lk : Lookup) (i v w : Nat)
    (hge : START_INDEX ≤ i)
    (hs : List.Pairwise (fun p q : Nat × Nat => p.1 < q.1) lk.scratchpad)
    (hmem : map_get lk.scratchpad i = some w) :
    lk.record i v = (.error "index repeated", lk) ∧
    map_get (lk.record i v).2.scratchpad i = some w ∧
    (v ≠ w → map_get (lk.record i v).2.scratchpad i ≠ some v) := by
  have hins : (map_insert lk.scratchpad i v).1 = some w := by
    rw [map_insert_fst _ _ _ hs, hmem]
  have hrec : lk.record i v = (.error "index repeated", lk) := by
    simp only [Lookup.record]
    rw [if_neg (by omega)]
    rcases hmi : map_insert lk.scratchpad i v with ⟨old, sp2⟩
    rw [hmi] at hins
    simp only at hins
    subst hins
    have hrest : (map_insert sp2 i w).2 = lk.scratchpad := by
      have := map_insert_restore lk.scratchpad i v w (by rw [hmi])
      rwa [hmi] at this
    simp [hrest]
  refine ⟨hrec, ?_, ?_⟩
  · rw [hrec]; exact hmem
  · intro hvw
    rw [hrec]
    simp only [hmem]
    intro hcon
    exact hvw (by injection hcon with h; exact h.symm)

/-- C10 witness: the theorem applied to a concrete `Lookup` scratchpad
holding 7 at index 130, re-recording index 130 with value 9. -/
theorem C10_record_duplicate_witness :
    lk_dup.record 130 9 = (.error "index repeated", lk_dup) ∧
    map_get (lk_dup.record 130 9).2.scratchpad 130 = some 7 ∧
    ((9 : Nat) ≠ 7 → map_get (lk_dup.record 130 9).2.scratchpad 130 ≠ some 9) :=
  C10_record_duplicate lk_dup 130 9 7 (by norm_num [START_INDEX])
    (by simp [lk_dup]) (by rfl)

/-! ### C8: do_expand error paths -/

lemma expand_loop_error_iff (entries : List (Nat × Nat)) (first : Bool) (sz : Nat)
    (txn : Db) (h128 : ∀ p ∈ entries, START_INDEX ≤ p.1) :
    (∃ e, expand_loop entries first sz txn = .error e) ↔
      entries.map Prod.fst ≠ List.range' (START_INDEX + sz) entries.length := by
  induction entries generalizing first sz txn with
  | nil => simp [expand_loop]
  | cons p rest ih =>
    obtain ⟨index, value⟩ := p
    have hge : START_INDEX ≤ index := h128 (index, value) (by simp)
    by_cases hidx : index - START_INDEX = sz
    · have hieq : index = START_INDEX + sz := by omega
      have ihr := ih false (sz + 1) (txn.set_expansion index value)
        (fun q hq => h128 q (by simp [hq]))
      rw [show START_INDEX + (sz + 1) = START_INDEX + sz + 1 from
        (Nat.add_assoc _ _ _).symm] at ihr
      simp only [expand_loop, hidx, bne_self_eq_false, Bool.false_eq_true, if_false]
      rw [ihr]
      simp only [List.map_cons, List.length_cons, List.range'_succ, hieq]
      constructor
      · intro hne hcon
        apply hne
        have := List.cons.injEq (START_INDEX + sz) (rest.map Prod.fst)
          (START_INDEX + sz) (List.range' (START_INDEX + sz + 1) rest.length)
        rw [this] at hcon
        exact hcon.2
      · intro hne hcon
        exact hne (by rw [hcon])
    · have hne : index ≠ START_INDEX + sz := by omega
      have hb : ((index - START_INDEX != sz) : Bool) = true := by
        simpa using hidx
      simp only [expand_loop, hb, if_true]
      constructor
      · intro _ hcon
        rw [List.map_cons, List.length_cons, List.range'_succ] at hcon
        have := (List.cons.injEq index (rest.map Prod.fst)
          (START_INDEX + sz) (List.range' (START_INDEX + sz + 1) rest.length)).mp hcon
        exact hne this.1
      · intro _
        exact ⟨_, rfl⟩

/-- C8: when `do_expand` fails, the scratchpad has nevertheless been emptied
while the store (the lookup table, crest, and stateful-start markers) is
unchanged (the transaction is never committed); moreover (for scratchpad
indices at least 128, as `record` guarantees) `do_expand` fails exactly when
the scratchpad keys are not the consecutive run starting at
`128 + table size`. -/
theorem C8_do_expand_error_frame (lk : Lookup) (b : Nat)
    (hblk : lk.cur_block_no = some b)
    (h128 : ∀ p ∈ lk.scratchpad, START_INDEX ≤ p.1) :
    (lk.do_expand).2.scratchpad = [] ∧
    (∀ e, (lk.do_expand).1 = .error e →
      (lk.do_expand).2.db = lk.db ∧
      (lk.do_expand).2.db.lookup_table = lk.db.lookup_table ∧
      (lk.do_expand).2.db.crest = lk.db.crest ∧
      (lk.do_expand).2.db.stateful_start = lk.db.stateful_start) ∧
    ((∃ e, (lk.do_expand).1 = .error e) ↔
      lk.scratchpad.map Prod.fst ≠
        List.range' (START_INDEX + lk.db.lookup_table.length) lk.scratchpad.length) := by
  have hiff := expand_loop_error_iff lk.scratchpad true lk.db.lookup_table.length
    lk.db h128
  rcases hres : expand_loop lk.scratchpad true lk.db.lookup_table.length lk.db
    with e | p
  · have hde : lk.do_expand = (.error e, { lk with scratchpad := [] }) := by
      simp [Lookup.do_expand, Lookup.get_table_size, hres]
    rw [hde] at *
    refine ⟨rfl, ?_, ?_⟩
    · intro e' _
      exact ⟨rfl, rfl, rfl, rfl⟩
    · rw [← hiff]
      simp [hres]
  · obtain ⟨sz2, txn⟩ := p
    obtain ⟨txn2, hssc⟩ :
        ∃ t, Lookup.set_stateful_compression { lk with scratchpad := [] } txn = .ok t := by
      simp only [Lookup.set_stateful_compression, Lookup.get_cur_block_no, hblk]
      by_cases hc : txn.crest.isNone <;> simp [hc, bind, Except.bind]
    have hde : lk.do_expand = (.ok (), { lk with scratchpad := [], db := txn2 }) := by
      simp [Lookup.do_expand, Lookup.get_table_size, hres, hssc]
    rw [hde]
    refine ⟨rfl, ?_, ?_⟩
    · intro e' hcon
      exact absurd hcon (by simp)
    · rw [← hiff]
      simp [hres]

/-- C8 witness: the theorem applied to a concrete `Lookup` whose scratchpad
starts at index 200 over an empty table, so `do_expand` fails and leaves the
store untouched while clearing the scratchpad. -/
theorem C8_do_expand_error_frame_witness :
    (lk_gap.do_expand).2.scratchpad = [] ∧
    (∀ e, (lk_gap.do_expand).1 = .error e →
      (lk_gap.do_expand).2.db = lk_gap.db ∧
      (lk_gap.do_expand).2.db.lookup_table = lk_gap.db.lookup_table ∧
      (lk_gap.do_expand).2.db.crest = lk_gap.db.crest ∧
      (lk_gap.do_expand).2.db.stateful_start = lk_gap.db.stateful_start) ∧
    ((∃ e, (lk_gap.do_expand).1 = .error e) ↔
      lk_gap.scratchpad.map Prod.fst ≠
        List.range' (START_INDEX + lk_gap.db.lookup_table.length)
          lk_gap.scratchpad.length) :=
  C8_do_expand_error_frame lk_gap 9 rfl
    (by intro p hp; simp [lk_gap] at hp; simp [hp, START_INDEX])

/-! ### C3: decompression of the minimal header -/

lemma check_zero_tail_replicate (k : Nat) :
    check_zero_tail_loop (List.replicate k 0) = .ok k := by
  induction k with
  | zero => rfl
  | succ n ih =>
    simp [List.replicate_succ, check_zero_tail_loop, ih, bind, Except.bind]

/-- C3: decompressing the header with base-`2^20` digits `version = 0`,
`total_len = 1`, `bucket0_len = 1`, rest 0 (the field element
`2^20 + 2^40`), followed by one verbatim field element `v`, the zero
bucket-index felt, and `k` zero field elements, succeeds with output `[v]`
and tail count `k`. -/
theorem C3_decompress_minimal_header (v k : Nat) (hv : v < BLS_MODULUS) :
    unpack_header (2 ^ 20 + 2 ^ 40) = .ok [1, 1, 0, 0, 0, 0, 0, 0] ∧
    Decompressor.decompress ((2 ^ 20 + 2 ^ 40) :: v :: 0 :: List.replicate k 0) =
      .ok ([v], k) := by
  refine ⟨by rfl, ?_⟩
  have hmain :
      Decompressor.decompress ((2 ^ 20 + 2 ^ 40) :: v :: 0 :: List.replicate k 0) =
        Except.bind (check_zero_tail_loop (List.replicate k 0))
          (fun n => Except.ok ([v], n)) := by
    with_unfolding_all rfl
  rw [hmain, check_zero_tail_replicate]
  rfl

/-- C3 witness: the theorem applied at `v = 7`, `k = 2`. -/
theorem C3_decompress_minimal_header_witness :
    unpack_header (2 ^ 20 + 2 ^ 40) = .ok [1, 1, 0, 0, 0, 0, 0, 0] ∧
    Decompressor.decompress ((2 ^ 20 + 2 ^ 40) :: 7 :: 0 :: List.replicate 2 0) =
      .ok ([7], 2) :=
  C3_decompress_minimal_header 7 2 (by norm_num [BLS_MODULUS])

/-! ### C9: bucket indices are always in range -/

lemma unpack_felt_loop_lt (bound : Nat) (hb : 0 < bound) (packed n : Nat) :
    ∀ x ∈ (unpack_felt_loop bound packed n).1, x < bound := by
  induction n generalizing packed with
  | zero => simp [unpack_felt_loop]
  | succ m ih =>
    intro x hx
    simp only [unpack_felt_loop, List.mem_cons] at hx
    rcases hx with hx | hx
    · subst hx; exact Nat.mod_lt _ hb
    · exact ih (packed / bound) x hx

lemma unpack_felt_elems_lt (packed bound n : Nat) (hb : 0 < bound)
    (out : List Nat) (rest : Nat) (h : unpack_felt packed bound n = .ok (out, rest)) :
    ∀ x ∈ out, x < bound := by
  by_cases hn : n = 0
  · subst hn
    unfold unpack_felt at h
    rw [if_pos rfl] at h
    by_cases hp : packed = 0
    · rw [if_pos hp] at h
      simp only [Except.ok.injEq, Prod.mk.injEq] at h
      intro x hx
      rw [← h.1] at hx
      exact absurd hx (List.not_mem_nil x)
    · rw [if_neg hp] at h
      exact absurd h (by simp)
  · simp only [unpack_felt, if_neg hn, Except.ok.injEq] at h
    have hl := unpack_felt_loop_lt bound hb packed n
    rw [h] at hl
    simpa using hl

lemma unpack_felts_given_mem (d d' : Decompressor) (bound per : Nat) (hb : 0 < bound)
    (dst dst' : List Nat)
    (h : d.unpack_felts_given_n_packed_felts bound per dst = .ok (dst', d')) :
    ∀ x ∈ dst', x ∈ dst ∨ x < bound := by
  rcases hcur : d.current with _ | ⟨felt, remaining⟩
  · simp [Decompressor.unpack_felts_given_n_packed_felts, hcur] at h
  · simp only [Decompressor.unpack_felts_given_n_packed_felts, hcur] at h
    rcases hu : unpack_felt felt bound per with e | ⟨elements, rest⟩
    · simp [hu, bind, Except.bind] at h
    · simp only [hu, bind, Except.bind] at h
      by_cases hr : rest = 0
      · simp only [hr, bne_self_eq_false, Bool.false_eq_true, if_false,
          Except.ok.injEq, Prod.mk.injEq] at h
        intro x hx
        rw [← h.1, List.mem_append] at hx
        rcases hx with hx | hx
        · exact Or.inl hx
        · exact Or.inr (unpack_felt_elems_lt felt bound per hb elements rest hu x hx)
      · have : ((rest != 0) : Bool) = true := by simpa using hr
        simp [this] at h

lemma unpack_felts_full_mem (count : Nat) :
    ∀ (d d' : Decompressor) (bound per : Nat), 0 < bound →
    ∀ (dst dst' : List Nat),
    Decompressor.unpack_felts_full count d bound per dst = .ok (dst', d') →
    ∀ x ∈ dst', x ∈ dst ∨ x < bound := by
  induction count with
  | zero =>
    intro d d' bound per _ dst dst' h x hx
    simp only [Decompressor.unpack_felts_full, Except.ok.injEq, Prod.mk.injEq] at h
    rw [← h.1] at hx
    exact Or.inl hx
  | succ m ih =>
    intro d d' bound per hb dst dst' h x hx
    simp only [Decompressor.unpack_felts_full, bind, Except.bind] at h
    rcases hg : d.unpack_felts_given_n_packed_felts bound per dst with e | ⟨dst1, d1⟩
    · rw [hg] at h; exact absurd h (by simp)
    · rw [hg] at h
      rcases ih d1 d' bound per hb dst1 dst' h x hx with hmem | hlt
      · exact unpack_felts_given_mem d d1 bound per hb dst dst1 hg x hmem
      · exact Or.inr hlt

lemma unpack_felts_mem (d d' : Decompressor) (n_elms bound per : Nat) (hb : 0 < bound)
    (dst dst' : List Nat)
    (h : d.unpack_felts n_elms bound per dst = .ok (dst', d')) :
    ∀ x ∈ dst', x ∈ dst ∨ x < bound := by
  intro x hx
  simp only [Decompressor.unpack_felts, bind, Except.bind] at h
  rcases hf : Decompressor.unpack_felts_full (n_elms / per) d bound per dst
    with e | ⟨dst1, d1⟩
  · rw [hf] at h; exact absurd h (by simp)
  · rw [hf] at h
    replace h :
        (if n_elms % per > 0 then
          d1.unpack_felts_given_n_packed_felts bound (n_elms % per) dst1
        else Except.ok (dst1, d1)) = Except.ok (dst', d') := h
    by_cases hrem : n_elms % per > 0
    · rw [if_pos hrem] at h
      rcases unpack_felts_given_mem d1 d' bound _ hb dst1 dst' h x hx with hmem | hlt
      · exact unpack_felts_full_mem _ d d1 bound per hb dst dst1 hf x hmem
      · exact Or.inr hlt
    · rw [if_neg hrem] at h
      simp only [Except.ok.injEq, Prod.mk.injEq] at h
      rw [← h.1] at hx
      exact unpack_felts_full_mem _ d d1 bound per hb dst dst1 hf x hx

lemma get_bucket_offsets_loop_length (c : Nat) (ls : List Nat) :
    (get_bucket_offsets_loop c ls).length = ls.length := by
  induction ls generalizing c with
  | nil => rfl
  | cons l rest ih => simp [get_bucket_offsets_loop, ih]

lemma reconstruct_loop_checked_eq (all_values : List Nat) :
    ∀ (bis trackers data : List Nat),
    (∀ b ∈ bis, b < trackers.length) →
    reconstruct_data_loop_checked all_values trackers bis data =
      some (reconstruct_data_loop all_values trackers bis data) := by
  intro bis
  induction bis with
  | nil => intro trackers data _; rfl
  | cons b rest ih =>
    intro trackers data h7
    have hb : b < trackers.length := h7 b (by simp)
    simp only [reconstruct_data_loop_checked, reconstruct_data_loop, if_pos hb]
    exact ih _ _ (fun x hx => by
      rw [List.length_set]
      exact h7 x (by simp [hx]))

/-- C9: every bucket index produced by `unpack_bucket_index_per_elm` is a
remainder modulo 7 and hence below 7 (`TOTAL_N_BUCKETS`); consequently, for
a decompressor whose header provided the usual 8 sizes, the offset-tracker
indexing of `reconstruct_data` is always in bounds: the bounds-checked
variant never fails and agrees with the unchecked one. -/
theorem C9_bucket_indices_in_range :
    (∀ (packed n : Nat) (out : List Nat) (rest : Nat),
      unpack_felt packed TOTAL_N_BUCKETS n = .ok (out, rest) →
      ∀ x ∈ out, x < TOTAL_N_BUCKETS) ∧
    (∀ (d d' : Decompressor) (bis : List Nat),
      d.unpack_bucket_index_per_elm = .ok (bis, d') →
      ∀ b ∈ bis, b < TOTAL_N_BUCKETS) ∧
    (∀ (d : Decompressor) (all_values bis : List Nat),
      d.sizes.length = 8 →
      (∀ b ∈ bis, b < TOTAL_N_BUCKETS) →
      d.reconstruct_data_checked all_values bis =
        some (d.reconstruct_data all_values bis)) := by
  have h7 : 0 < TOTAL_N_BUCKETS := by norm_num [TOTAL_N_BUCKETS]
  refine ⟨?_, ?_, ?_⟩
  · intro packed n out rest h
    exact unpack_felt_elems_lt packed TOTAL_N_BUCKETS n h7 out rest h
  · intro d d' bis h
    simp only [Decompressor.unpack_bucket_index_per_elm] at h
    intro b hb
    rcases unpack_felts_mem d d' (d.sizes.getD 0 0) TOTAL_N_BUCKETS 83 h7 [] bis h b hb
      with hmem | hlt
    · exact absurd hmem (List.not_mem_nil b)
    · exact hlt
  · intro d all_values bis hsz h7b
    have hlen : (get_bucket_offsets ((d.sizes.drop 1).take 7)).length = 7 := by
      rw [get_bucket_offsets, get_bucket_offsets_loop_length, List.length_take,
        List.length_drop, hsz]
      norm_num
    simp only [Decompressor.reconstruct_data_checked, Decompressor.reconstruct_data]
    exact reconstruct_loop_checked_eq all_values bis _ []
      (fun x hx => by rw [hlen]; exact h7b x hx)

/-- C9 witness: the theorem applied to a concrete decompressor state (one
bucket-index felt `0`, sizes `[1,1,0,0,0,0,0,0]`) and a concrete
reconstruction. -/
theorem C9_bucket_indices_in_range_witness :
    (∀ x ∈ [0], x < TOTAL_N_BUCKETS) ∧
    (∀ b ∈ [0], b < TOTAL_N_BUCKETS) ∧
    d_c9.reconstruct_data_checked [5] [0] =
      some (d_c9.reconstruct_data [5] [0]) :=
  ⟨C9_bucket_indices_in_range.1 0 1 [0] 0 (by rfl),
   C9_bucket_indices_in_range.2.1 d_c9 { current := [], sizes := [1, 1, 0, 0, 0, 0, 0, 0] }
     [0] (by rfl),
   C9_bucket_indices_in_range.2.2 d_c9 [5] [0] (by rfl)
     (by norm_num [TOTAL_N_BUCKETS])⟩

/-! ### C4: the precomputed point table -/

lemma bit_reverse_add (w j n : Nat) (h : n < 2 ^ w) :
    bit_reverse (w + j) n = 2 ^ j * bit_reverse w n := by
  induction j with
  | zero => simp
  | succ m ih =>
    have ht : n.testBit (w + m) = false :=
      Nat.testBit_lt_two_pow
        (lt_of_lt_of_le h (Nat.pow_le_pow_right (by norm_num) (by omega)))
    show bit_reverse ((w + m) + 1) n = 2 ^ (m + 1) * bit_reverse w n
    rw [bit_reverse, ih, ht]
    norm_num
    ring

lemma bit_reverse_16_div_16 (i : Nat) (h : i < 2 ^ 12) :
    bit_reverse 16 i / 16 = bit_reverse 12 i := by
  have h16 : bit_reverse 16 i = 2 ^ 4 * bit_reverse 12 i := by
    have := bit_reverse_add 12 4 i h
    norm_num at this ⊢
    exact this
  rw [h16]
  norm_num [Nat.mul_div_cancel_left]

lemma transformer_points_getD (i : Nat) (h : i < 4096) :
    Transformer.new.points.getD i 0 =
      Transformer.gen_exp_mod TransConst.mk_default (bit_reverse 16 i / 16) := by
  simp only [Transformer.new, FIELD_ELEMENTS_PER_BLOB]
  rw [List.getD_eq_getElem?_getD, List.getElem?_map, List.getElem?_range h]
  rfl

/-- C4 counterexample: at index 1 the precomputed point is NOT
`G ^ (bit_reverse12(1) / 16) mod P` (with `bit_reverse12` the reversal of
the 12 index bits): the table holds `G ^ 2048 mod P` while the claimed
formula gives `G ^ 128 mod P`. -/
theorem C4_points_counterexample :
    Transformer.new.points.getD 1 0 ≠
      GENERATOR ^ (bit_reverse 12 1 / 16) % BLS_MODULUS := by
  rw [transformer_points_getD 1 (by norm_num)]
  decide

/-- C4 (amended): for every index `i < 4096` the precomputed table of
`Transformer::new` satisfies
`points[i] = G ^ (bit_reverse16(i) / 16) mod P = G ^ bit_reverse12(i) mod P`:
the exponent is the 12-bit reversal of `i` itself (the division by 16 is
already accounted for by the 16-bit reversal's four trailing zero bits). -/
theorem C4_points_amended (i : Nat) (h : i < 4096) :
    Transformer.new.points.getD i 0 = GENERATOR ^ bit_reverse 12 i % BLS_MODULUS := by
  rw [transformer_points_getD i h, bit_reverse_16_div_16 i (by norm_num at h ⊢; omega)]
  rfl

/-- C4 witness: the amended theorem applied at index 5
(`bit_reverse12(5) = 2560`). -/
theorem C4_points_amended_witness :
    Transformer.new.points.getD 5 0 = GENERATOR ^ bit_reverse 12 5 % BLS_MODULUS :=
  C4_points_amended 5 (by norm_num)

/-! ### C5: the all-zero blob -/

lemma chunk_pairs_mem (arr : List Nat) (p : Nat × Nat) (hp : p ∈ chunk_pairs arr) :
    p.1 ∈ arr ∧ p.2 ∈ arr := by
  have H : ∀ (n : Nat) (l : List Nat), l.length ≤ n →
      ∀ q ∈ chunk_pairs l, (q : Nat × Nat).1 ∈ l ∧ q.2 ∈ l := by
    intro n
    induction n with
    | zero =>
      intro l hl q hq
      have : l = [] := List.eq_nil_of_length_eq_zero (by omega)
      subst this
      simp [chunk_pairs] at hq
    | succ m ih =>
      intro l hl q hq
      rcases l with _ | ⟨a, rest1⟩
      · simp [chunk_pairs] at hq
      · rcases rest1 with _ | ⟨b, rest⟩
        · simp [chunk_pairs] at hq
        · simp only [chunk_pairs, List.mem_cons] at hq
          rcases hq with rfl | hq
          · simp
          · have hr := ih rest (by simp at hl; omega) q hq
            exact ⟨by simp [hr.1], by simp [hr.2]⟩
  exact H arr.length arr (le_refl _) p hp

lemma div_mod_zero (t : Transformer) (b : Nat) : t.div_mod 0 b = 0 := by
  simp [Transformer.div_mod]

lemma getD_zero_of_all_zero (l : List Nat) (h : ∀ a ∈ l, a = 0) (i : Nat) :
    l.getD i 0 = 0 := by
  rw [List.getD_eq_getElem?_getD]
  rcases hl : l[i]? with _ | x
  · rfl
  · exact h x (List.getElem?_mem hl)

lemma ifft_fuel_all_zero (t : Transformer) (fuel : Nat) :
    ∀ (arr xs : List Nat), (∀ a ∈ arr, a = 0) →
      ∀ y ∈ t.ifft_fuel fuel arr xs, y = 0 := by
  induction fuel with
  | zero => intro arr xs h y hy; exact h y hy
  | succ m ih =>
    intro arr xs h y hy
    by_cases h1 : arr.length = 1
    · simp only [Transformer.ifft_fuel, h1, if_true] at hy
      exact h y hy
    · by_cases h0 : arr.length = 0
      · simp only [Transformer.ifft_fuel, h1, h0, if_true, if_false] at hy
        exact absurd hy (List.not_mem_nil y)
      · simp only [Transformer.ifft_fuel, h1, h0, if_false] at hy
        rw [List.mem_flatMap] at hy
        obtain ⟨a, _, hy⟩ := hy
        have hres0 : ∀ z ∈ (((chunk_pairs arr).zip (chunk_pairs xs)).map
            (fun p => t.div_mod (p.1.1 + p.1.2) t.big_const.two)), z = 0 := by
          intro z hz
          rw [List.mem_map] at hz
          obtain ⟨p, hp, hz⟩ := hz
          have hmem := chunk_pairs_mem arr p.1 (List.mem_zip hp).1
          rw [← hz, h p.1.1 hmem.1, h p.1.2 hmem.2]
          exact div_mod_zero t _
        have hres1 : ∀ z ∈ (((chunk_pairs arr).zip (chunk_pairs xs)).map
            (fun p =>
              t.div_mod
                (if p.1.2 > p.1.1 then t.big_const.bls_modulus - (p.1.2 - p.1.1)
                 else p.1.1 - p.1.2) (t.big_const.two * p.2.1))), z = 0 := by
          intro z hz
          rw [List.mem_map] at hz
          obtain ⟨p, hp, hz⟩ := hz
          have hmem := chunk_pairs_mem arr p.1 (List.mem_zip hp).1
          rw [← hz, h p.1.1 hmem.1, h p.1.2 hmem.2]
          simp only [lt_irrefl, if_neg, Nat.sub_zero]
          exact div_mod_zero t _
        have hm0 := ih
          (((chunk_pairs arr).zip (chunk_pairs xs)).map
            (fun p => t.div_mod (p.1.1 + p.1.2) t.big_const.two))
          (((chunk_pairs arr).zip (chunk_pairs xs)).map
            (fun p => p.2.1 * p.2.1 % t.big_const.bls_modulus)) hres0
        have hm1 := ih
          (((chunk_pairs arr).zip (chunk_pairs xs)).map
            (fun p =>
              t.div_mod
                (if p.1.2 > p.1.1 then t.big_const.bls_modulus - (p.1.2 - p.1.1)
                 else p.1.1 - p.1.2) (t.big_const.two * p.2.1)))
          (((chunk_pairs arr).zip (chunk_pairs xs)).map
            (fun p => p.2.1 * p.2.1 % t.big_const.bls_modulus)) hres1
        simp only [List.mem_cons, List.mem_singleton] at hy
        rcases hy with rfl | hy
        · exact getD_zero_of_all_zero _ hm0 a
        · rcases hy with rfl | hy
          · exact getD_zero_of_all_zero _ hm1 a
          · exact absurd hy (List.not_mem_nil y)

lemma length_flatMap_pair (n : Nat) (f g : Nat → Nat) :
    ((List.range n).flatMap (fun i => [f i, g i])).length = 2 * n := by
  rw [List.length_flatMap]
  have hmap : List.map (List.length ∘ fun i => [f i, g i]) (List.range n) =
      List.replicate (List.range n).length 2 := by
    apply List.eq_replicate_iff.mpr
    refine ⟨by simp, ?_⟩
    intro b hb
    rw [List.mem_map] at hb
    obtain ⟨a, _, hb⟩ := hb
    rw [← hb]
    rfl
  rw [hmap, List.sum_replicate, List.length_range, smul_eq_mul]
  omega

lemma ifft_fuel_length_succ (t : Transformer) (m : Nat) (arr xs : List Nat)
    (h1 : arr.length ≠ 1) (h0 : arr.length ≠ 0) :
    (t.ifft_fuel (m + 1) arr xs).length = 2 * (arr.length / 2) := by
  simp only [Transformer.ifft_fuel, h1, h0, if_false]
  exact length_flatMap_pair (arr.length / 2) _ _

lemma parse_two_zeros_then_tail (k : Nat) :
    StateUpdateParser.parse (0 :: 0 :: List.replicate k 0) v0_13_1.make_pack_const
      lk_fresh =
      Except.bind (check_zero_tail_loop (List.replicate k 0))
        (fun n =>
          Except.ok ({ contract_updates := []
                       class_declarations := []
                       range := { min_seq_no := none, max_seq_no := none }
                       tail_size := n }, lk_fresh)) := by
  with_unfolding_all rfl

lemma parse_zero_4096 :
    StateUpdateParser.parse (List.replicate 4096 0) v0_13_1.make_pack_const lk_fresh =
      .ok ({ contract_updates := []
             class_declarations := []
             range := { min_seq_no := none, max_seq_no := none }
             tail_size := 4094 }, lk_fresh) := by
  rw [show (4096 : Nat) = 4095 + 1 from by norm_num, List.replicate_succ,
    show (4095 : Nat) = 4094 + 1 from by norm_num, List.replicate_succ,
    parse_two_zeros_then_tail 4094, check_zero_tail_replicate]
  rfl

/-- C5 counterexample: parsing the all-zero 4096-element sequence does NOT
return the error "Missing number of contract updates" (as the claim states);
it succeeds, with no contract updates, no class declarations and a zero tail
of 4094 elements. -/
theorem C5_parse_zero_counterexample :
    StateUpdateParser.parse (List.replicate 4096 0) v0_13_1.make_pack_const lk_fresh =
      .ok ({ contract_updates := []
             class_declarations := []
             range := { min_seq_no := none, max_seq_no := none }
             tail_size := 4094 }, lk_fresh) ∧
    StateUpdateParser.parse (List.replicate 4096 0) v0_13_1.make_pack_const lk_fresh ≠
      .error "Missing number of contract updates" := by
  refine ⟨parse_zero_4096, ?_⟩
  intro hcon
  rw [parse_zero_4096] at hcon
  exact absurd hcon (by simp)

/-- C5 (amended): transforming the all-zero blob yields 4096 zero field
elements, and parsing that all-zero sequence succeeds with an empty state
diff (no contract updates, no class declarations, `tail_size = 4094`); the
"Missing number of contract updates" error arises only for an empty
sequence. -/
theorem C5_transform_zero_and_parse :
    Transformer.new.transform (List.replicate 4096 0) = List.replicate 4096 0 ∧
    StateUpdateParser.parse (List.replicate 4096 0) v0_13_1.make_pack_const lk_fresh =
      .ok ({ contract_updates := []
             class_declarations := []
             range := { min_seq_no := none, max_seq_no := none }
             tail_size := 4094 }, lk_fresh) ∧
    StateUpdateParser.parse [] v0_13_1.make_pack_const lk_fresh =
      .error "Missing number of contract updates" := by
  refine ⟨?_, ?_, by rfl⟩
  · rw [Transformer.transform, Transformer.ifft, List.length_replicate]
    apply List.eq_replicate_iff.mpr
    constructor
    · rw [show (4096 : Nat) = 4095 + 1 from by norm_num]
      rw [ifft_fuel_length_succ Transformer.new 4095 (List.replicate (4095 + 1) 0)
        Transformer.new.points (by rw [List.length_replicate]; omega)
        (by rw [List.length_replicate]; omega)]
      rw [List.length_replicate]
    · intro b hb
      exact ifft_fuel_all_zero _ _ _ _
        (fun a ha => List.eq_of_mem_replicate ha) b hb
  · exact parse_zero_4096

/-! ### C2: storage-update counts and class flags -/

lemma parse_storage_updates_length (n : Nat) :
    ∀ (st st' : PState) (l : List StorageUpdate),
      StateUpdateParser.parse_storage_updates n st = .ok (l, st') → l.length = n := by
  induction n with
  | zero =>
    intro st st' l h
    simp only [StateUpdateParser.parse_storage_updates, Except.ok.injEq,
      Prod.mk.injEq] at h
    rw [← h.1]
    rfl
  | succ m ih =>
    intro st st' l h
    simp only [StateUpdateParser.parse_storage_updates, bind, Except.bind] at h
    rcases h1 : StateUpdateParser.parse_storage_update st with e | ⟨su, st1⟩
    · rw [h1] at h; exact absurd h (by simp)
    · rw [h1] at h
      replace h :
          Except.bind (StateUpdateParser.parse_storage_updates m st1)
            (fun r => Except.ok (su :: r.1, r.2)) = Except.ok (l, st') := h
      rcases h2 : StateUpdateParser.parse_storage_updates m st1 with e | ⟨rest, st2⟩
      · rw [h2] at h; exact absurd h (by simp [Except.bind])
      · rw [h2] at h
        replace h : Except.ok (su :: rest, st2) = Except.ok (l, st') := h
        simp only [Except.ok.injEq, Prod.mk.injEq] at h
        rw [← h.1]
        simp [ih st1 st2 rest h2]

/-- The C2 property of a single contract update: its storage-update count and
class-hash presence agree with the unpacking of some packed word. -/
def cu_matches_packed (pc : PackConst) (cu : ContractUpdate) : Prop :=
  ∃ packed flag nonce count,
    pc.unpack_contract_update packed = .ok (flag, nonce, count) ∧
    cu.storage_updates.length = count ∧
    cu.new_class_hash.isSome = flag ∧
    cu.nonce = nonce

lemma parse_contract_update_spec (pc : PackConst) (st st' : PState)
    (cu : ContractUpdate)
    (h : StateUpdateParser.parse_contract_update pc st = .ok (cu, st')) :
    cu_matches_packed pc cu := by
  simp only [StateUpdateParser.parse_contract_update] at h
  rcases hcur : st.current with _ | ⟨address, rest⟩
  · rw [hcur] at h; exact absurd h (by simp)
  · rw [hcur] at h
    dsimp only at h
    by_cases haddr : address = 0
    · rw [if_pos haddr] at h; exact absurd h (by simp)
    · rw [if_neg haddr] at h
      simp only [bind, Except.bind] at h
      rcases hra : StateUpdateParser.resolve_address pc
          { st with current := rest } address with e | ⟨addr, st1⟩
      · rw [hra] at h; exact absurd h (by simp)
      · rw [hra] at h
        dsimp only at h
        rcases hcur1 : st1.current with _ | ⟨packed, rest2⟩
        · rw [hcur1] at h; exact absurd h (by simp)
        · rw [hcur1] at h
          dsimp only at h
          rcases hun : pc.unpack_contract_update packed with e | ⟨flag, nonce, count⟩
          · rw [hun] at h; exact absurd h (by simp)
          · rw [hun] at h
            dsimp only at h
            cases flag with
            | false =>
              simp only [Bool.false_eq_true, if_false] at h
              rcases hsl : StateUpdateParser.parse_storage_updates count
                  { st1 with current := rest2 } with e | ⟨sus, st4⟩
              · rw [hsl] at h; exact absurd h (by simp)
              · rw [hsl] at h
                dsimp only at h
                rcases hexp : StateUpdateParser.expand_if_needed st4 with e | stf
                · rw [hexp] at h; exact absurd h (by simp)
                · rw [hexp] at h
                  dsimp only at h
                  simp only [Except.ok.injEq, Prod.mk.injEq] at h
                  refine ⟨packed, false, nonce, count, hun, ?_, ?_, ?_⟩
                  · rw [← h.1]
                    exact parse_storage_updates_length count _ _ _ hsl
                  · rw [← h.1]
                    rfl
                  · rw [← h.1]
            | true =>
              simp only [if_true] at h
              rcases hcur2 : rest2 with _ | ⟨hash, rest3⟩
              · rw [hcur2] at h; exact absurd h (by simp)
              · rw [hcur2] at h
                dsimp only at h
                rcases hsl : StateUpdateParser.parse_storage_updates count
                    { st1 with current := rest3 } with e | ⟨sus, st4⟩
                · rw [hsl] at h; exact absurd h (by simp)
                · rw [hsl] at h
                  dsimp only at h
                  rcases hexp : StateUpdateParser.expand_if_needed st4 with e | stf
                  · rw [hexp] at h; exact absurd h (by simp)
                  · rw [hexp] at h
                    dsimp only at h
                    simp only [Except.ok.injEq, Prod.mk.injEq] at h
                    refine ⟨packed, true, nonce, count, hun, ?_, ?_, ?_⟩
                    · rw [← h.1]
                      exact parse_storage_updates_length count _ _ _ hsl
                    · rw [← h.1]
                      rfl
                    · rw [← h.1]

lemma parse_contract_updates_loop_spec (pc : PackConst) (n : Nat) :
    ∀ (st st' : PState) (l : List ContractUpdate),
      StateUpdateParser.parse_contract_updates_loop pc n st = .ok (l, st') →
      ∀ cu ∈ l, cu_matches_packed pc cu := by
  induction n with
  | zero =>
    intro st st' l h cu hcu
    simp only [StateUpdateParser.parse_contract_updates_loop, Except.ok.injEq,
      Prod.mk.injEq] at h
    rw [← h.1] at hcu
    exact absurd hcu (List.not_mem_nil cu)
  | succ m ih =>
    intro st st' l h cu hcu
    simp only [StateUpdateParser.parse_contract_updates_loop, bind, Except.bind] at h
    rcases h1 : StateUpdateParser.parse_contract_update pc st with e | ⟨cu1, st1⟩
    · rw [h1] at h; exact absurd h (by simp)
    · rw [h1] at h
      dsimp only at h
      rcases h2 : StateUpdateParser.parse_contract_updates_loop pc m st1
        with e | ⟨rest, st2⟩
      · rw [h2] at h; exact absurd h (by simp)
      · rw [h2] at h
        dsimp only at h
        simp only [Except.ok.injEq, Prod.mk.injEq] at h
        rw [← h.1] at hcu
        rcases List.mem_cons.mp hcu with rfl | hcu2
        · exact parse_contract_update_spec pc st st1 cu h1
        · exact ih st1 st2 rest h2 cu hcu2

lemma parse_contract_updates_spec (pc : PackConst) (st st' : PState)
    (l : List ContractUpdate)
    (h : StateUpdateParser.parse_contract_updates pc st = .ok (l, st')) :
    ∀ cu ∈ l, cu_matches_packed pc cu := by
  simp only [StateUpdateParser.parse_contract_updates] at h
  rcases hcur : st.current with _ | ⟨raw, rest⟩
  · rw [hcur] at h; exact absurd h (by simp)
  · rw [hcur] at h
    dsimp only at h
    rcases hp : parse_usize raw with e | num
    · rw [hp] at h; exact absurd h (by simp)
    · rw [hp] at h
      dsimp only at h
      exact parse_contract_updates_loop_spec pc num _ _ l h

/-- C2: on every successful `StateUpdateParser::parse`, each `ContractUpdate`
of the resulting `StateDiff` carries exactly `update_count` storage updates,
where `(class_flag, nonce, update_count)` is the unpacking of the packed word
consumed for that contract, and `new_class_hash` is present iff `class_flag`
is set (and `nonce` is the unpacked nonce). -/
theorem C2_storage_counts_and_class_flags (input : List Nat) (pc : PackConst)
    (lk : Lookup) (sd : StateDiff) (lk2 : Lookup)
    (h : StateUpdateParser.parse input pc lk = .ok (sd, lk2)) :
    ∀ cu ∈ sd.contract_updates, ∃ packed flag nonce count,
      pc.unpack_contract_update packed = .ok (flag, nonce, count) ∧
      cu.storage_updates.length = count ∧
      cu.new_class_hash.isSome = flag ∧
      cu.nonce = nonce := by
  intro cu hcu
  simp only [StateUpdateParser.parse, bind, Except.bind] at h
  rcases h1 : StateUpdateParser.parse_contract_updates pc
      { current := input, lookup_usage_state := .Off, lookup := lk,
        range := { min_seq_no := none, max_seq_no := none } } with e | ⟨l, st1⟩
  · rw [h1] at h; exact absurd h (by simp)
  · rw [h1] at h
    dsimp only at h
    rcases h2 : StateUpdateParser.parse_class_declarations st1 with e | ⟨ds, st2⟩
    · rw [h2] at h; exact absurd h (by simp)
    · rw [h2] at h
      dsimp only at h
      rcases h3 : check_zero_tail_loop st2.current with e | n
      · rw [h3] at h; exact absurd h (by simp)
      · rw [h3] at h
        dsimp only at h
        simp only [Except.ok.injEq, Prod.mk.injEq] at h
        have hl : cu ∈ l := by
          rw [← h.1] at hcu
          exact hcu
        exact parse_contract_updates_spec pc _ st1 l h1 cu hl

/-- C2 witness: the theorem applied to the concrete successful parse of
`[1, 5, 0, 0]` (one contract at address 5 whose packed word 0 unpacks to
`(false, 0, 0)`). -/
theorem C2_storage_counts_and_class_flags_witness :
    ∃ packed flag nonce count,
      (v0_13_1.make_pack_const).unpack_contract_update packed =
        .ok (flag, nonce, count) ∧
      ({ address := 5, nonce := 0, new_class_hash := none,
         storage_updates := [] } : ContractUpdate).storage_updates.length = count ∧
      ({ address := 5, nonce := 0, new_class_hash := none,
         storage_updates := [] } : ContractUpdate).new_class_hash.isSome = flag ∧
      ({ address := 5, nonce := 0, new_class_hash := none,
         storage_updates := [] } : ContractUpdate).nonce = nonce :=
  C2_storage_counts_and_class_flags [1, 5, 0, 0] v0_13_1.make_pack_const lk_fresh
    { contract_updates := [{ address := 5, nonce := 0, new_class_hash := none,
                             storage_updates := [] }]
      class_declarations := []
      range := { min_seq_no := none, max_seq_no := none }
      tail_size := 0 }
    lk_fresh (by rfl)
    { address := 5, nonce := 0, new_class_hash := none, storage_updates := [] }
    (by simp)

end StarknetScrape
